import Mathlib

/-!
Verification development for the MCPClient repository (src/client.py).

The file shallowly embeds the two core components of the program:

* the Session Bridge (`SessionManager`: `initialize_session`, `run_in_session`,
  `get_session`), modelled as explicit state passing for the manager state, a
  trace/result function for `run_in_session`, and a small step relation for the
  `threading.Lock` discipline that serializes bridged session calls; and
* the Agentic Tool-Loop (`MCPClient.process_query`), modelled as a fold over
  the content blocks of the initial language-model response, with the external
  collaborators (the language-model service, `session.list_tools`,
  `session.call_tool`) supplied as an explicit environment.

Machine-level effects (actual network I/O, the tkinter GUI, printing) are out
of scope; the embedding follows the control flow, data flow and error flow of
the Python source line by line.
-/

namespace MCPClient

/-- A tool descriptor as built in `process_query` from `session.list_tools()`:
`{"name": tool.name, "description": tool.description, "input_schema": tool.inputSchema}`.
The schema payload is kept abstract as a string. -/
structure ToolDescriptor where
  name : String
  description : String
  input_schema : String
deriving DecidableEq, Repr

/-- The result object returned by `session.call_tool(name, args)` (an MCP
`CallToolResult`): a content payload, kept abstract as a string, plus the
`isError` flag the MCP client library uses to report tool-level failures
without raising. -/
structure CallToolResult where
  content : String
  isError : Bool
deriving DecidableEq, Repr

/-- The dynamic type of the `"content"` value of a message dict appended to
`messages` in `process_query`: either a plain string (the user query, or model
text) or the `result.content` payload of a tool call. -/
inductive TurnContent
  | ofText (s : String)
  | ofToolResult (p : String)
deriving DecidableEq, Repr

/-- One element of the `messages` list: `{"role": ..., "content": ...}`. -/
structure Turn where
  role : String
  content : TurnContent
deriving DecidableEq, Repr

/-- One content block of a model response: the anthropic API returns blocks
with `type == 'text'` (carrying `.text`) or `type == 'tool_use'` (carrying
`.name` and `.input`, and no `.text` attribute). -/
inductive ContentBlock
  | text (s : String)
  | tool_use (name : String) (input : String)
deriving DecidableEq, Repr

/-- A model response: `response.content` is an ordered list of blocks. -/
structure ModelResponse where
  content : List ContentBlock
deriving DecidableEq, Repr

/-- `getattr(block, 'text', None)` combined with Python truthiness: the code
guards with `if hasattr(content, 'text') and content.text:`.  A `text` block
has a (possibly empty) `.text`; a `tool_use` block has no `.text` attribute. -/
def blockText? : ContentBlock → Option String
  | .text s => some s
  | .tool_use _ _ => none

/-- Python runtime errors that `process_query` can raise while handling model
responses: dereferencing `.text` on a block that has none (`attributeError`,
also raised when `session` is `None`) and indexing an empty content list
(`indexError`). -/
inductive PyErr
  | attributeError
  | indexError
deriving DecidableEq, Repr

/-- `response.content[0].text`: fails with an `IndexError` on an empty content
list and with an `AttributeError` when block 0 is a `tool_use` block. -/
def firstBlockText : ModelResponse → Except PyErr String
  | ⟨[]⟩ => .error .indexError
  | ⟨b :: _⟩ =>
    match blockText? b with
    | some s => .ok s
    | none => .error .attributeError

/-- A record of one `self.anthropic.messages.create(...)` invocation: the
`messages` argument and the `tools` argument (`none` when the parameter was
omitted, as in the follow-up call at lines 201-205 of client.py). -/
structure ModelCall where
  messages : List Turn
  tools : Option (List ToolDescriptor)
deriving DecidableEq, Repr

/-- The external collaborators of `process_query`, supplied as an environment:
the tool catalog returned by `session.list_tools()`, the language-model
service as a function of the request's `messages` and `tools` arguments, and
`session.call_tool` as a function of tool name and arguments. -/
structure Env where
  tools : List ToolDescriptor
  model : List Turn → Option (List ToolDescriptor) → ModelResponse
  callTool : String → String → CallToolResult

/-- The mutable local state of one `process_query` invocation: the `messages`
conversation, the `tool_results` list, the accumulated `final_text`, and (for
specification purposes) the log of model calls issued so far. -/
structure PQState where
  messages : List Turn
  tool_results : List (String × String)
  final_text : List String
  modelCalls : List ModelCall
deriving DecidableEq, Repr

/-- The body of the `for content in response.content:` loop of
`process_query` for one content block (client.py lines 177-207).

* a `text` block only appends its text to `final_text`;
* a `tool_use` block invokes the tool, records the result, appends
  `"[Calling tool ... with args ...]"` to `final_text`, appends the model's
  preceding text as an `assistant` turn only if the *current block* has a
  truthy `.text` attribute (`if hasattr(content, 'text') and content.text:` —
  the current block is the `tool_use` block here), appends the
  `result.content` payload as a `"user"` turn, re-invokes the model on the
  updated `messages` *without* the `tools` parameter, and appends
  `response.content[0].text` of that follow-up response to `final_text`,
  raising if that dereference fails. -/
def processBlock (env : Env) (st : PQState) : ContentBlock → Except PyErr PQState
  | .text s => .ok { st with final_text := st.final_text ++ [s] }
  | .tool_use name args =>
    let result := env.callTool name args
    let assistantTurns : List Turn :=
      match blockText? (.tool_use name args) with
      | some t => if t = "" then [] else [⟨"assistant", .ofText t⟩]
      | none => []
    let msgs := st.messages ++ assistantTurns ++ [⟨"user", .ofToolResult result.content⟩]
    let resp := env.model msgs none
    match firstBlockText resp with
    | .error e => .error e
    | .ok t =>
      .ok { messages := msgs
            tool_results := st.tool_results ++ [(name, result.content)]
            final_text := st.final_text ++
              ["[Calling tool " ++ name ++ " with args " ++ args ++ "]", t]
            modelCalls := st.modelCalls ++ [⟨msgs, none⟩] }

/-- The `for content in response.content:` loop.  The iterator is fixed when
the loop starts, so reassigning `response` inside the body does not change the
sequence of dispatched blocks: only the blocks of the initial response are
processed. -/
def processBlocks (env : Env) : List ContentBlock → PQState → Except PyErr PQState
  | [], st => .ok st
  | b :: bs, st =>
    match processBlock env st b with
    | .error e => .error e
    | .ok st' => processBlocks env bs st'

/-- `MCPClient.process_query` (client.py lines 142-209).  `sessionOpt` is the
session handle obtained from `session_manager.get_session()`; when it is
`None` the expression `session.list_tools()` raises an `AttributeError`
(caught, printed and re-raised at lines 153-156).  Otherwise the tool catalog
is fetched, the model is called once with `tools=available_tools`, the blocks
of that response are dispatched in order, and `"\n".join(final_text)` is
returned together with the loop state. -/
def process_query (env : Env) (sessionOpt : Option Unit) (query : String) :
    Except PyErr PQState :=
  match sessionOpt with
  | none => .error .attributeError
  | some _ =>
    let msgs0 : List Turn := [⟨"user", .ofText query⟩]
    let resp0 := env.model msgs0 (some env.tools)
    let st0 : PQState :=
      { messages := msgs0
        tool_results := []
        final_text := []
        modelCalls := [⟨msgs0, some env.tools⟩] }
    processBlocks env resp0.content st0

/-- `"\n".join(final_text)`, the value `process_query` returns. -/
def joinFinalText (st : PQState) : String :=
  String.intercalate "\x0a" st.final_text

/-- Does a response contain at least one `tool_use` block? -/
def hasToolUse (r : ModelResponse) : Bool :=
  r.content.any fun b =>
    match b with
    | .tool_use _ _ => true
    | .text _ => false

/-- Number of `tool_use` blocks in a list of content blocks. -/
def countToolUse (bs : List ContentBlock) : Nat :=
  (bs.filter fun b =>
    match b with
    | .tool_use _ _ => true
    | .text _ => false).length

/-! ### Session Bridge: `SessionManager` (client.py lines 23-61) -/

/-- The mutable state of the `SessionManager` singleton: `self.session`,
`self._loop` and `self.exit_stack`, each `None` until `initialize_session`
sets them.  Sessions, loops and exit stacks are identified by abstract
numeric ids. -/
structure SessionManagerState where
  session : Option Nat
  loop : Option Nat
  exit_stack : Option Nat
deriving DecidableEq, Repr

/-- `SessionManager.__init__`: every field starts as `None`. -/
def SessionManagerState.new : SessionManagerState :=
  { session := none, loop := none, exit_stack := none }

/-- `SessionManager.initialize_session` (client.py lines 33-39).  The method
performs no check on the existing state: it unconditionally builds a fresh
exit stack, transport and session and records the calling loop, overwriting
whatever was there.  It never raises because of an existing session, so the
result is `Except.ok` for every prior state. -/
def initialize_session (st : SessionManagerState)
    (newStack newSession newLoop : Nat) : Except String SessionManagerState :=
  let _ := st
  .ok { session := some newSession, loop := some newLoop, exit_stack := some newStack }

/-- `SessionManager.get_session` (client.py lines 56-58): returns the pair
`(self.session, self._loop)` as currently stored. -/
def get_session (st : SessionManagerState) : Option Nat × Option Nat :=
  (st.session, st.loop)

/-- The observable actions of one `run_in_session` invocation, in order:
entering `with self._lock:`, handing the coroutine to the owning loop via
`run_coroutine_threadsafe`, blocking on `future.result(timeout=5)`,
`future.cancel()` in the `except` clause, awaiting the coroutine directly in
the same-loop branch, and releasing the lock when the `with` block exits
(normally or by exception). -/
inductive BridgeAction
  | acquireLock
  | submitToLoop
  | waitFuture
  | cancelFuture
  | awaitDirect
  | releaseLock
deriving DecidableEq, Repr

/-- Errors surfaced by a bridged call: the `concurrent.futures.TimeoutError`
raised by `future.result(timeout=5)` (the spec's `BridgeTimeout`), or the
exception raised by the bridged coroutine itself, re-raised to the caller. -/
inductive BridgeError
  | bridgeTimeout
  | opFailure (e : String)
deriving DecidableEq, Repr

/-- The action trace of `SessionManager.run_in_session` (client.py lines
41-54) as a function of which loop the caller runs on, whether the marshaled
future timed out, and whether the bridged coroutine raised.  The branch
condition is the source's `if self._loop != asyncio.get_running_loop():`; in
the marshaled branch the `except` clause cancels the future on any exception
(timeout included) before re-raising; in both branches the `with` block
releases the lock on the way out. -/
def run_in_session_trace (owningLoop callerLoop : Nat)
    (timedOut opRaised : Bool) : List BridgeAction :=
  if owningLoop ≠ callerLoop then
    [.acquireLock, .submitToLoop, .waitFuture] ++
      (if timedOut || opRaised then [.cancelFuture] else []) ++ [.releaseLock]
  else
    [.acquireLock, .awaitDirect, .releaseLock]

/-- The value/exception outcome of `SessionManager.run_in_session`: on the
marshaled path a timeout beats the coroutine's own outcome (the caller sees
the `TimeoutError` from `future.result`); otherwise the coroutine's result or
exception is propagated unchanged in both branches. -/
def run_in_session_result (owningLoop callerLoop : Nat)
    (opOutcome : Except String Nat) (timedOut : Bool) : Except BridgeError Nat :=
  if owningLoop ≠ callerLoop then
    if timedOut then .error .bridgeTimeout
    else
      match opOutcome with
      | .ok a => .ok a
      | .error e => .error (.opFailure e)
  else
    match opOutcome with
    | .ok a => .ok a
    | .error e => .error (.opFailure e)

/-- Python's `str.endswith(suffix)` on strings, as used at client.py lines
122-123, computed on the underlying character lists. -/
def endswith (s suffix : String) : Bool :=
  suffix.data.isSuffixOf s.data

/-- `MCPClient.connect_to_server` (client.py lines 116-138), backend-selection
part: the extension check runs before anything else, and only when it passes
are the `StdioServerParameters` (interpreter command plus script path)
constructed and handed to `initialize_session`.  The returned pair is
`(command, args)`. -/
def connect_to_server (server_script_path : String) :
    Except String (String × List String) :=
  let is_python := endswith server_script_path ".py"
  let is_js := endswith server_script_path ".js"
  if !(is_python || is_js) then
    .error "Server script must be a .py or .js file"
  else
    let command := if is_python then "python" else "node"
    .ok (command, [server_script_path])

/-! ### The `threading.Lock` discipline of `run_in_session`, as a step
relation.  Each potential caller of `run_in_session` is a context `i : Fin n`;
a context acquires `self._lock` (possible only while no context holds it),
then performs its session operation while still holding the lock — the
`with self._lock:` block spans both branches, including the blocking
`future.result` wait and the direct `await` — and finally releases the lock
when the `with` block exits. -/

/-- The phase of one calling context with respect to `self._lock`. -/
inductive CallerPhase
  | idle
  | holdingLock
  | inSessionCall
  | finished
deriving DecidableEq, Repr

/-- A context holds the guard while in `holdingLock` or `inSessionCall`. -/
def holdsGuard : CallerPhase → Bool
  | .holdingLock => true
  | .inSessionCall => true
  | .idle => false
  | .finished => false

/-- One transition of the bridge's locking protocol: `acquire` models
`self._lock.acquire()` succeeding (only possible when no context holds the
lock), `beginCall` models entering the session operation while holding the
lock, `endCall` models the operation finishing and the `with` block exiting,
which releases the lock. -/
inductive BridgeStep {n : Nat} : (Fin n → CallerPhase) → (Fin n → CallerPhase) → Prop
  | acquire (s : Fin n → CallerPhase) (i : Fin n)
      (hfree : ∀ j, holdsGuard (s j) = false) (hi : s i = .idle) :
      BridgeStep s (Function.update s i .holdingLock)
  | beginCall (s : Fin n → CallerPhase) (i : Fin n) (hi : s i = .holdingLock) :
      BridgeStep s (Function.update s i .inSessionCall)
  | endCall (s : Fin n → CallerPhase) (i : Fin n) (hi : s i = .inSessionCall) :
      BridgeStep s (Function.update s i .finished)

/-- Configurations reachable from the all-idle start by the locking protocol. -/
def BridgeReachable {n : Nat} (s : Fin n → CallerPhase) : Prop :=
  Relation.ReflTransGen BridgeStep (fun _ => CallerPhase.idle) s

/-! ### Basic lemmas about the dispatch loop -/

/-- The `"user"`-role turn carrying `result.content` that the `tool_use`
branch appends to `messages`. -/
def toolResultTurn (env : Env) (name args : String) : Turn :=
  ⟨"user", .ofToolResult (env.callTool name args).content⟩

/-- Unfolding of `processBlock` on a `tool_use` block: the assistant-text
branch is dead (`blockText?` of a `tool_use` block is `none`), so the only
turn appended is the tool-result turn, and the outcome hinges on
`response.content[0].text` of the follow-up model call. -/
theorem processBlock_tool_use (env : Env) (st : PQState) (name args : String) :
    processBlock env st (.tool_use name args) =
      match firstBlockText
          (env.model (st.messages ++ [toolResultTurn env name args]) none) with
      | .error e => .error e
      | .ok t =>
        .ok { messages := st.messages ++ [toolResultTurn env name args]
              tool_results := st.tool_results ++ [(name, (env.callTool name args).content)]
              final_text := st.final_text ++
                ["[Calling tool " ++ name ++ " with args " ++ args ++ "]", t]
              modelCalls := st.modelCalls ++
                [⟨st.messages ++ [toolResultTurn env name args], none⟩] } := by
  simp [processBlock, blockText?, toolResultTurn]

/-- Structure of a successful run of the dispatch loop: `messages` grows only
by `"user"`-role turns, `final_text` grows append-only, the model-call log
grows by exactly one `tools`-omitted call per `tool_use` block, and
`tool_results` grows by exactly one entry per `tool_use` block. -/
theorem processBlocks_ok_shape (env : Env) :
    ∀ (bs : List ContentBlock) (st st' : PQState),
    processBlocks env bs st = .ok st' →
    (∃ extraM, st'.messages = st.messages ++ extraM ∧
      ∀ t ∈ extraM, t.role = "user") ∧
    (∃ extraF, st'.final_text = st.final_text ++ extraF) ∧
    (∃ extraC, st'.modelCalls = st.modelCalls ++ extraC ∧
      (∀ c ∈ extraC, c.tools = none) ∧ extraC.length = countToolUse bs) ∧
    st'.tool_results.length = st.tool_results.length + countToolUse bs := by
  intro bs
  induction bs with
  | nil =>
    intro st st' h
    simp only [processBlocks] at h
    cases h
    refine ⟨⟨[], by simp⟩, ⟨[], by simp⟩, ⟨[], by simp [countToolUse]⟩, by simp [countToolUse]⟩
  | cons b bs ih =>
    intro st st' h
    simp only [processBlocks] at h
    cases hb : processBlock env st b with
    | error e => rw [hb] at h; cases h
    | ok st1 =>
      rw [hb] at h
      obtain ⟨⟨eM, hM, hMu⟩, ⟨eF, hF⟩, ⟨eC, hC, hCn, hClen⟩, hT⟩ := ih st1 st' h
      cases b with
      | text s =>
        simp only [processBlock, Except.ok.injEq] at hb
        subst hb
        refine ⟨⟨eM, by simpa using hM, hMu⟩,
                ⟨s :: eF, by simpa using hF⟩,
                ⟨eC, by simpa using hC, hCn, by simpa [countToolUse] using hClen⟩,
                by simpa [countToolUse] using hT⟩
      | tool_use name args =>
        rw [processBlock_tool_use] at hb
        cases hfb : firstBlockText
            (env.model (st.messages ++ [toolResultTurn env name args]) none) with
        | error e => rw [hfb] at hb; cases hb
        | ok t =>
          rw [hfb] at hb
          simp only [Except.ok.injEq] at hb
          subst hb
          refine ⟨⟨toolResultTurn env name args :: eM, by simpa using hM, ?_⟩,
                  ⟨("[Calling tool " ++ name ++ " with args " ++ args ++ "]") :: t :: eF,
                    by simpa using hF⟩,
                  ⟨(⟨st.messages ++ [toolResultTurn env name args], none⟩ : ModelCall) :: eC,
                    by simpa using hC, ?_, by simp [countToolUse] at hClen ⊢; omega⟩,
                  by simp [countToolUse] at hT ⊢; omega⟩
          · intro u hu
            rcases List.mem_cons.mp hu with h1 | h1
            · subst h1; rfl
            · exact hMu u h1
          · intro c hc
            rcases List.mem_cons.mp hc with h1 | h1
            · subst h1; rfl
            · exact hCn c h1

/-- The text of every `text` block dispatched by the loop ends up in
`final_text`: a `text` block appends its string immediately, and `final_text`
is append-only afterwards. -/
theorem processBlocks_text_mem (env : Env) :
    ∀ (bs : List ContentBlock) (st st' : PQState),
    processBlocks env bs st = .ok st' →
    ∀ s, ContentBlock.text s ∈ bs → s ∈ st'.final_text := by
  intro bs
  induction bs with
  | nil => intro st st' h s hs; cases hs
  | cons b bs ih =>
    intro st st' h s hs
    simp only [processBlocks] at h
    cases hb : processBlock env st b with
    | error e => rw [hb] at h; cases h
    | ok st1 =>
      rw [hb] at h
      rcases List.mem_cons.mp hs with h1 | h1
      · subst h1
        simp only [processBlock, Except.ok.injEq] at hb
        subst hb
        obtain ⟨eF, hF⟩ := (processBlocks_ok_shape env bs _ _ h).2.1
        rw [hF]
        simp
      · exact ih st1 st' h s h1

/-- A response with no `tool_use` block has a `tool_use` count of zero. -/
theorem countToolUse_eq_zero (r : ModelResponse) (h : hasToolUse r = false) :
    countToolUse r.content = 0 := by
  simp only [hasToolUse, List.any_eq_false] at h
  simp only [countToolUse, List.length_eq_zero, List.filter_eq_nil_iff]
  intro b hb
  have := h b hb
  cases b with
  | text s => simp
  | tool_use name args => simp at this

/-! ### Claim C8: the backend-selection extension rule -/

/-- C8: for every backend-selection path whose file extension is outside the
accepted set {`.py`, `.js`}, `connect_to_server` surfaces the configuration
error `"Server script must be a .py or .js file"` before any connection
attempt (no server parameters are produced); a `.py` path selects the
`python` interpreter and a `.js` path selects `node`, and the connection
proceeds with those parameters. -/
theorem connect_to_server_extension_rule (path : String) :
    (endswith path ".py" = false ∧ endswith path ".js" = false →
      connect_to_server path = .error "Server script must be a .py or .js file") ∧
    (endswith path ".py" = true →
      connect_to_server path = .ok ("python", [path])) ∧
    (endswith path ".py" = false ∧ endswith path ".js" = true →
      connect_to_server path = .ok ("node", [path])) := by
  refine ⟨fun ⟨h1, h2⟩ => ?_, fun h => ?_, fun ⟨h1, h2⟩ => ?_⟩ <;>
    simp [connect_to_server, *]

/-- Witness for `connect_to_server_extension_rule` at the three concrete
paths `"weather.py"`, `"weather.js"` and `"weather.txt"`. -/
theorem connect_to_server_extension_rule_witness :
    connect_to_server "weather.py" = .ok ("python", ["weather.py"]) ∧
    connect_to_server "weather.js" = .ok ("node", ["weather.js"]) ∧
    connect_to_server "weather.txt" =
      .error "Server script must be a .py or .js file" :=
  ⟨(connect_to_server_extension_rule "weather.py").2.1 (by decide),
   (connect_to_server_extension_rule "weather.js").2.2 ⟨by decide, by decide⟩,
   (connect_to_server_extension_rule "weather.txt").1 ⟨by decide, by decide⟩⟩

/-! ### Claim C7: re-invoking Connect on a live Session -/

/-- C7 counterexample: invoking `initialize_session` on a manager state whose
session is alive (`session = some 1`) does *not* fail fast — it returns
`Except.ok` and silently replaces the session, loop and exit stack with the
new ones. -/
theorem initialize_session_no_fail_fast_cex :
    initialize_session ⟨some 1, some 10, some 100⟩ 200 2 20 =
      .ok ⟨some 2, some 20, some 200⟩ ∧
    (some 2 : Option Nat) ≠ some 1 := by
  exact ⟨rfl, by decide⟩

/-- C7 amended: `initialize_session` performs no exactly-once check at all —
invoked on *any* prior manager state (a live session included) it succeeds
and silently replaces the session, the owning loop and the exit stack with
freshly created ones, without closing the old ones and without raising. -/
theorem initialize_session_always_replaces (st : SessionManagerState)
    (newStack newSession newLoop : Nat) :
    initialize_session st newStack newSession newLoop =
      .ok ⟨some newSession, some newLoop, some newStack⟩ := rfl

/-! ### Claim C10: `process_query` before a completed Connect -/

/-- An environment with an empty tool catalog, a model that answers with an
empty response, and a trivial tool backend. -/
def envTrivial : Env :=
  { tools := []
    model := fun _ _ => ⟨[]⟩
    callTool := fun _ _ => ⟨"", false⟩ }

/-- C10: before `initialize_session` has completed, the manager is in its
initial state, `get_session` returns a `None` session, and `process_query`
invoked with that session raises (`AttributeError` on
`session.list_tools()`); after a completed `initialize_session` the stored
session is the fresh one, so the error branch is unreachable. -/
theorem process_query_requires_session :
    get_session SessionManagerState.new = (none, none) ∧
    (∀ (env : Env) (q : String),
      process_query env ((get_session SessionManagerState.new).1.map fun _ => ()) q =
        .error .attributeError) ∧
    (∀ (st : SessionManagerState) (newStack newSession newLoop : Nat)
        (st' : SessionManagerState),
      initialize_session st newStack newSession newLoop = .ok st' →
      (get_session st').1 = some newSession) := by
  refine ⟨rfl, fun env q => rfl, ?_⟩
  intro st newStack newSession newLoop st' h
  simp only [initialize_session, Except.ok.injEq] at h
  subst h
  rfl

/-- Witness for `process_query_requires_session`: the fresh manager state and
the concrete transition `initialize_session` from it. -/
theorem process_query_requires_session_witness :
    get_session SessionManagerState.new = (none, none) ∧
    process_query envTrivial none "hello" = .error .attributeError ∧
    (get_session ⟨some 5, some 6, some 7⟩).1 = some 5 :=
  ⟨process_query_requires_session.1,
   process_query_requires_session.2.1 envTrivial "hello",
   process_query_requires_session.2.2 SessionManagerState.new 7 5 6
     ⟨some 5, some 6, some 7⟩ rfl⟩

/-! ### Claim C5: same-loop reentrancy of `run_in_session` -/

/-- C5: a caller already running on the owning loop takes the direct branch —
the coroutine is awaited in place, no marshaling hop (`submitToLoop`) occurs,
no blocking future wait (`waitFuture`) occurs (so the call never waits on a
future that its own loop must complete), and the coroutine's outcome is
propagated unchanged; a caller on any other loop has its operation marshaled
onto the owning loop. -/
theorem run_in_session_same_loop_direct (owningLoop callerLoop : Nat)
    (opOutcome : Except String Nat) (timedOut opRaised : Bool) :
    (callerLoop = owningLoop →
      run_in_session_trace owningLoop callerLoop timedOut opRaised =
        [.acquireLock, .awaitDirect, .releaseLock] ∧
      BridgeAction.submitToLoop ∉
        run_in_session_trace owningLoop callerLoop timedOut opRaised ∧
      BridgeAction.waitFuture ∉
        run_in_session_trace owningLoop callerLoop timedOut opRaised ∧
      run_in_session_result owningLoop callerLoop opOutcome timedOut =
        (match opOutcome with
         | .ok a => .ok a
         | .error e => .error (.opFailure e))) ∧
    (callerLoop ≠ owningLoop →
      BridgeAction.submitToLoop ∈
        run_in_session_trace owningLoop callerLoop timedOut opRaised) := by
  constructor
  · intro h
    subst h
    refine ⟨?_, ?_, ?_, ?_⟩ <;>
      simp [run_in_session_trace, run_in_session_result]
  · intro h
    unfold run_in_session_trace
    rw [if_pos (Ne.symm h)]
    simp

/-- Witness for `run_in_session_same_loop_direct` with owning loop `1`, a
same-loop caller on loop `1` and a foreign caller on loop `2`. -/
theorem run_in_session_same_loop_direct_witness :
    run_in_session_trace 1 1 true true =
      [.acquireLock, .awaitDirect, .releaseLock] ∧
    BridgeAction.submitToLoop ∈ run_in_session_trace 1 2 false false :=
  ⟨((run_in_session_same_loop_direct 1 1 (.ok 0) true true).1 rfl).1,
   (run_in_session_same_loop_direct 1 2 (.ok 0) false false).2 (by decide)⟩

/-! ### Claim C6: timeout of a marshaled call -/

/-- C6: a marshaled call (caller on a foreign loop) whose future times out
yields the `BridgeTimeout` error to the caller, performs a best-effort
`future.cancel()` on the pending operation, and still releases the lock as
the last action of the call (the `with` block exits on the re-raise), so the
Bridge is not left permanently locked for subsequent callers. -/
theorem run_in_session_timeout_isolation (owningLoop callerLoop : Nat)
    (opOutcome : Except String Nat) (opRaised : Bool)
    (hdiff : owningLoop ≠ callerLoop) :
    run_in_session_result owningLoop callerLoop opOutcome true =
      .error .bridgeTimeout ∧
    BridgeAction.cancelFuture ∈ run_in_session_trace owningLoop callerLoop true opRaised ∧
    (run_in_session_trace owningLoop callerLoop true opRaised).getLast? =
      some .releaseLock := by
  refine ⟨?_, ?_, ?_⟩ <;>
    simp [run_in_session_result, run_in_session_trace, hdiff]

/-- Witness for `run_in_session_timeout_isolation`: owning loop `1`, caller
on loop `2`, timed-out future. -/
theorem run_in_session_timeout_isolation_witness :
    run_in_session_result 1 2 (.ok 0) true = .error .bridgeTimeout ∧
    BridgeAction.cancelFuture ∈ run_in_session_trace 1 2 true false ∧
    (run_in_session_trace 1 2 true false).getLast? = some .releaseLock :=
  run_in_session_timeout_isolation 1 2 (.ok 0) false (by decide)

/-! ### Claim C4: mutual exclusion of bridged session calls -/

/-- In every configuration reachable by the locking protocol, at most one
context holds the guard. -/
theorem bridge_holdsGuard_unique {n : Nat} {s : Fin n → CallerPhase}
    (h : BridgeReachable s) :
    ∀ i j, holdsGuard (s i) = true → holdsGuard (s j) = true → i = j := by
  unfold BridgeReachable at h
  induction h with
  | refl => intro i j hi; simp [holdsGuard] at hi
  | tail hsteps hstep ih =>
    intro i j hi hj
    cases hstep with
    | acquire k hfree hk =>
      by_cases hik : i = k
      · by_cases hjk : j = k
        · rw [hik, hjk]
        · rw [Function.update_noteq hjk] at hj
          rw [hfree j] at hj
          cases hj
      · rw [Function.update_noteq hik] at hi
        rw [hfree i] at hi
        cases hi
    | beginCall k hk =>
      by_cases hik : i = k
      · by_cases hjk : j = k
        · rw [hik, hjk]
        · rw [Function.update_noteq hjk] at hj
          exact absurd (ih j k hj (by rw [hk]; rfl)) hjk
      · rw [Function.update_noteq hik] at hi
        exact absurd (ih i k hi (by rw [hk]; rfl)) hik
    | endCall k hk =>
      by_cases hik : i = k
      · rw [hik, Function.update_same] at hi
        cases hi
      · by_cases hjk : j = k
        · rw [hjk, Function.update_same] at hj
          cases hj
        · rw [Function.update_noteq hik] at hi
          rw [Function.update_noteq hjk] at hj
          exact ih i j hi hj

/-- C4: in every reachable configuration of the locking protocol of
`run_in_session`, no two distinct calling contexts are inside a bridged
session call at the same time — the `threading.Lock` held for the duration of
the marshaled call serializes the operations, so the session receives them
one at a time in some linear order. -/
theorem bridged_calls_mutually_exclusive {n : Nat} {s : Fin n → CallerPhase}
    (h : BridgeReachable s) (i j : Fin n)
    (hi : s i = .inSessionCall) (hj : s j = .inSessionCall) : i = j :=
  bridge_holdsGuard_unique h i j (by rw [hi]; rfl) (by rw [hj]; rfl)

/-- A two-context configuration in which context `0` has acquired the lock. -/
def bridgeS1 : Fin 2 → CallerPhase :=
  Function.update (fun _ => CallerPhase.idle) 0 CallerPhase.holdingLock

/-- The configuration after context `0` also enters its session call. -/
def bridgeS2 : Fin 2 → CallerPhase :=
  Function.update bridgeS1 0 CallerPhase.inSessionCall

/-- `bridgeS2` is reachable: all-idle, then `acquire 0`, then `beginCall 0`. -/
theorem bridgeS2_reachable : BridgeReachable bridgeS2 := by
  have h1 : BridgeStep (fun _ => CallerPhase.idle) bridgeS1 :=
    BridgeStep.acquire _ 0 (fun j => rfl) rfl
  have h2 : BridgeStep bridgeS1 bridgeS2 :=
    BridgeStep.beginCall bridgeS1 0 rfl
  exact Relation.ReflTransGen.tail (Relation.ReflTransGen.tail .refl h1) h2

/-- Witness for `bridged_calls_mutually_exclusive` at the concrete reachable
configuration `bridgeS2` with both indices equal to `0`. -/
theorem bridged_calls_mutually_exclusive_witness :
    BridgeReachable bridgeS2 ∧ bridgeS2 0 = CallerPhase.inSessionCall ∧
    (0 : Fin 2) = 0 :=
  ⟨bridgeS2_reachable, rfl,
   bridged_calls_mutually_exclusive bridgeS2_reachable 0 0 rfl rfl⟩

/-! ### Claim C2: tool failures are recorded and the loop continues -/

/-- C2: a failing tool invocation (the MCP client library reports tool-level
failures as a `CallToolResult` with `isError = true` rather than by raising)
does not abort `process_query`: the dispatch of the `tool_use` block succeeds,
the failure payload `result.content` is appended to the conversation as the
tool-result turn (not silently dropped), and the model is consulted again on
the updated conversation — the logged follow-up call carries exactly the
conversation that contains the failure turn. -/
theorem tool_failure_recorded_nonfatal (env : Env) (st : PQState)
    (name args t : String)
    (hfail : (env.callTool name args).isError = true)
    (hresp : firstBlockText
      (env.model (st.messages ++ [toolResultTurn env name args]) none) = .ok t) :
    processBlock env st (.tool_use name args) = .ok
      { messages := st.messages ++ [toolResultTurn env name args]
        tool_results := st.tool_results ++ [(name, (env.callTool name args).content)]
        final_text := st.final_text ++
          ["[Calling tool " ++ name ++ " with args " ++ args ++ "]", t]
        modelCalls := st.modelCalls ++
          [⟨st.messages ++ [toolResultTurn env name args], none⟩] } ∧
    toolResultTurn env name args ∈ st.messages ++ [toolResultTurn env name args] ∧
    (toolResultTurn env name args).content =
      .ofToolResult (env.callTool name args).content := by
  refine ⟨?_, by simp, rfl⟩
  rw [processBlock_tool_use, hresp]

/-- An environment whose single tool always fails (`isError = true`) and
whose model reacts to the failure with a plain-text follow-up. -/
def envFail : Env :=
  { tools := [⟨"lookup", "d", "s"⟩]
    model := fun _ tools? =>
      match tools? with
      | some _ => ⟨[.tool_use "lookup" "x"]⟩
      | none => ⟨[.text "The tool reported an error."]⟩
    callTool := fun _ _ => ⟨"error: backend unavailable", true⟩ }

/-- The loop state just before dispatching the failing `tool_use` block. -/
def stFail0 : PQState :=
  { messages := [⟨"user", .ofText "q"⟩]
    tool_results := []
    final_text := []
    modelCalls := [⟨[⟨"user", .ofText "q"⟩], some envFail.tools⟩] }

/-- Witness for `tool_failure_recorded_nonfatal` at the failing tool of
`envFail`. -/
theorem tool_failure_recorded_nonfatal_witness :
    (envFail.callTool "lookup" "x").isError = true ∧
    processBlock envFail stFail0 (.tool_use "lookup" "x") = .ok
      { messages := [⟨"user", .ofText "q"⟩,
                     ⟨"user", .ofToolResult "error: backend unavailable"⟩]
        tool_results := [("lookup", "error: backend unavailable")]
        final_text := ["[Calling tool lookup with args x]",
                       "The tool reported an error."]
        modelCalls := [⟨[⟨"user", .ofText "q"⟩], some envFail.tools⟩,
                       ⟨[⟨"user", .ofText "q"⟩,
                         ⟨"user", .ofToolResult "error: backend unavailable"⟩], none⟩] } ∧
    toolResultTurn envFail "lookup" "x" ∈
      ([⟨"user", .ofText "q"⟩,
        ⟨"user", .ofToolResult "error: backend unavailable"⟩] : List Turn) :=
  ⟨rfl,
   (tool_failure_recorded_nonfatal envFail stFail0 "lookup" "x"
     "The tool reported an error." rfl rfl).1,
   (tool_failure_recorded_nonfatal envFail stFail0 "lookup" "x"
     "The tool reported an error." rfl rfl).2.1⟩

/-! ### Claim C9: follow-up model calls omit the tool descriptors -/

/-- C9: in every successful `process_query` run, the first logged model call
passes `tools = available_tools` and every later logged call omits the
`tools` parameter; and dispatching a `tool_use` block issues exactly one such
`tools`-omitted call and appends to the answer exactly the text of the first
content block of its response (nothing else of that response is used). -/
theorem followup_calls_omit_tools (env : Env) (q : String) (st' : PQState)
    (h : process_query env (some ()) q = .ok st') :
    st'.modelCalls.head?.map ModelCall.tools = some (some env.tools) ∧
    (∀ c ∈ st'.modelCalls.drop 1, c.tools = none) ∧
    (∀ (st : PQState) (name args t : String),
      firstBlockText
        (env.model (st.messages ++ [toolResultTurn env name args]) none) = .ok t →
      processBlock env st (.tool_use name args) = .ok
        { messages := st.messages ++ [toolResultTurn env name args]
          tool_results := st.tool_results ++ [(name, (env.callTool name args).content)]
          final_text := st.final_text ++
            ["[Calling tool " ++ name ++ " with args " ++ args ++ "]", t]
          modelCalls := st.modelCalls ++
            [⟨st.messages ++ [toolResultTurn env name args], none⟩] }) := by
  simp only [process_query] at h
  obtain ⟨_, _, ⟨eC, hC, hCn, _⟩, _⟩ := processBlocks_ok_shape env _ _ _ h
  refine ⟨?_, ?_, ?_⟩
  · rw [hC]; rfl
  · rw [hC]
    intro c hc
    exact hCn c (by simpa using hc)
  · intro st name args t hresp
    rw [processBlock_tool_use, hresp]

/-- The scenario of spec §8: one `add` tool, a model that requests it once
and then answers in plain text. -/
def envSimple : Env :=
  { tools := [⟨"add", "adds two numbers", "schema"⟩]
    model := fun _ tools? =>
      match tools? with
      | some _ => ⟨[.tool_use "add" "(2, 2)"]⟩
      | none => ⟨[.text "The result is 4."]⟩
    callTool := fun _ _ => ⟨"4", false⟩ }

/-- The final loop state of `process_query envSimple (some ()) "What is 2+2?"`. -/
def stSimple : PQState :=
  { messages := [⟨"user", .ofText "What is 2+2?"⟩, ⟨"user", .ofToolResult "4"⟩]
    tool_results := [("add", "4")]
    final_text := ["[Calling tool add with args (2, 2)]", "The result is 4."]
    modelCalls := [⟨[⟨"user", .ofText "What is 2+2?"⟩], some envSimple.tools⟩,
                   ⟨[⟨"user", .ofText "What is 2+2?"⟩,
                     ⟨"user", .ofToolResult "4"⟩], none⟩] }

/-- Witness for `followup_calls_omit_tools` on the concrete `envSimple` run. -/
theorem followup_calls_omit_tools_witness :
    process_query envSimple (some ()) "What is 2+2?" = .ok stSimple ∧
    stSimple.modelCalls.head?.map ModelCall.tools = some (some envSimple.tools) ∧
    (⟨[⟨"user", .ofText "What is 2+2?"⟩, ⟨"user", .ofToolResult "4"⟩],
      none⟩ : ModelCall).tools = none :=
  ⟨rfl,
   (followup_calls_omit_tools envSimple "What is 2+2?" stSimple rfl).1,
   (followup_calls_omit_tools envSimple "What is 2+2?" stSimple rfl).2.1 _
     (by decide)⟩

/-! ### Claim C3: placement of model text preceding a tool-use block -/

/-- An environment whose initial model response is a text block `"T1"`
followed by a `tool_use` block `u1`. -/
def envC3 : Env :=
  { tools := [⟨"u1", "d", "s"⟩]
    model := fun _ tools? =>
      match tools? with
      | some _ => ⟨[.text "T1", .tool_use "u1" "args1"]⟩
      | none => ⟨[.text "done"]⟩
    callTool := fun _ _ => ⟨"res1", false⟩ }

/-- C3 counterexample: for the model response `[text "T1", tool_use u1]`, the
conversation after dispatch does *not* contain `"T1"` as an assistant turn —
it contains no assistant turn at all (roles are `["user", "user"]`), because
the guard `hasattr(content, 'text')` is evaluated on the `tool_use` block,
which has no text.  `"T1"` ends up only in the accumulated answer text. -/
theorem assistant_text_not_in_conversation_cex :
    (process_query envC3 (some ()) "q").map
      (fun st => (st.messages.map Turn.role,
                  st.messages.any (fun turn => turn.role == "assistant"),
                  st.final_text)) =
      .ok (["user", "user"], false,
           ["T1", "[Calling tool u1 with args args1]", "done"]) := by
  rfl

/-- C3 amended: the text block `T1` preceding a tool-use block is appended to
the accumulated answer text, not to the Conversation: in every successful
`process_query` run all conversation turns (the tool-result turns included)
carry role `"user"` — no assistant turn is ever appended, since the text
check inspects the `tool_use` block itself, which never has text — while the
text of every text block of the initial response is present in the
accumulated answer. -/
theorem model_text_goes_to_answer_not_conversation (env : Env) (q : String)
    (st' : PQState) (h : process_query env (some ()) q = .ok st') :
    (∀ turn ∈ st'.messages, turn.role = "user") ∧
    (∀ s, ContentBlock.text s ∈
        (env.model [⟨"user", .ofText q⟩] (some env.tools)).content →
      s ∈ st'.final_text) := by
  simp only [process_query] at h
  constructor
  · obtain ⟨eM, hM, hMu⟩ := (processBlocks_ok_shape env _ _ _ h).1
    rw [hM]
    intro turn hturn
    rcases List.mem_append.mp hturn with h1 | h1
    · have : turn = ⟨"user", .ofText q⟩ := by simpa using h1
      rw [this]
    · exact hMu turn h1
  · intro s hs
    exact processBlocks_text_mem env _ _ _ h s hs

/-- The final loop state of `process_query envC3 (some ()) "q"`. -/
def stC3val : PQState :=
  { messages := [⟨"user", .ofText "q"⟩, ⟨"user", .ofToolResult "res1"⟩]
    tool_results := [("u1", "res1")]
    final_text := ["T1", "[Calling tool u1 with args args1]", "done"]
    modelCalls := [⟨[⟨"user", .ofText "q"⟩], some envC3.tools⟩,
                   ⟨[⟨"user", .ofText "q"⟩,
                     ⟨"user", .ofToolResult "res1"⟩], none⟩] }

/-- Witness for `model_text_goes_to_answer_not_conversation` on the concrete
`envC3` run. -/
theorem model_text_goes_to_answer_not_conversation_witness :
    process_query envC3 (some ()) "q" = .ok stC3val ∧
    (⟨"user", .ofToolResult "res1"⟩ : Turn).role = "user" ∧
    "T1" ∈ stC3val.final_text :=
  ⟨rfl,
   (model_text_goes_to_answer_not_conversation envC3 "q" stC3val rfl).1
     ⟨"user", .ofToolResult "res1"⟩ (by decide),
   (model_text_goes_to_answer_not_conversation envC3 "q" stC3val rfl).2
     "T1" (by decide)⟩

/-! ### Claim C1: which responses are dispatched, and loop termination -/

/-- An environment whose follow-up response itself contains a `tool_use`
block (for a tool `t2` that is never invoked). -/
def envC1 : Env :=
  { tools := [⟨"t", "d", "s"⟩]
    model := fun _ tools? =>
      match tools? with
      | some _ => ⟨[.tool_use "t" "a"]⟩
      | none => ⟨[.text "A", .tool_use "t2" "b"]⟩
    callTool := fun _ _ => ⟨"4", false⟩ }

/-- C1 counterexample: in the `envC1` run the second model response (the one
received after the first tool call) contains a `tool_use` block, yet the run
performs no further model call (the log stays at two calls) and no further
tool invocation (only tool `t` was called): the follow-up response is *not*
dispatched the way the initial one is, contradicting the claim that every
tool-use-bearing response loops back to a Model-Turn whose response is
dispatched the same way. -/
theorem loop_back_dispatch_cex :
    (process_query envC1 (some ()) "q").map
      (fun st => (st.modelCalls.length, st.tool_results,
        (st.modelCalls.drop 1).map
          (fun c => hasToolUse (envC1.model c.messages c.tools)))) =
      .ok (2, [("t", "4")], [true]) := by
  rfl

/-- C1 amended: only the blocks of the *initial* model response are
dispatched.  Each `tool_use` block of the initial response triggers exactly
one follow-up model call (and exactly one tool invocation), whatever the
follow-up responses contain; if the initial response contains no `tool_use`
block the loop makes no further model call and the accumulated text is
returned. -/
theorem dispatch_initial_response_only (env : Env) (q : String) (st' : PQState)
    (h : process_query env (some ()) q = .ok st') :
    st'.modelCalls.length =
      1 + countToolUse (env.model [⟨"user", .ofText q⟩] (some env.tools)).content ∧
    st'.tool_results.length =
      countToolUse (env.model [⟨"user", .ofText q⟩] (some env.tools)).content ∧
    (hasToolUse (env.model [⟨"user", .ofText q⟩] (some env.tools)) = false →
      st'.modelCalls.length = 1) := by
  simp only [process_query] at h
  obtain ⟨_, _, ⟨eC, hC, _, hClen⟩, hT⟩ := processBlocks_ok_shape env _ _ _ h
  refine ⟨?_, ?_, ?_⟩
  · rw [hC]
    simp [hClen]
    omega
  · simpa using hT
  · intro hno
    rw [hC]
    simp [hClen, countToolUse_eq_zero _ hno]

/-- The final loop state of `process_query envC1 (some ()) "q"`. -/
def stC1val : PQState :=
  { messages := [⟨"user", .ofText "q"⟩, ⟨"user", .ofToolResult "4"⟩]
    tool_results := [("t", "4")]
    final_text := ["[Calling tool t with args a]", "A"]
    modelCalls := [⟨[⟨"user", .ofText "q"⟩], some envC1.tools⟩,
                   ⟨[⟨"user", .ofText "q"⟩, ⟨"user", .ofToolResult "4"⟩], none⟩] }

/-- An environment whose initial response is pure text (no tool use). -/
def envText : Env :=
  { tools := []
    model := fun _ _ => ⟨[.text "hi there"]⟩
    callTool := fun _ _ => ⟨"", false⟩ }

/-- The final loop state of `process_query envText (some ()) "q"`. -/
def stTextVal : PQState :=
  { messages := [⟨"user", .ofText "q"⟩]
    tool_results := []
    final_text := ["hi there"]
    modelCalls := [⟨[⟨"user", .ofText "q"⟩], some []⟩] }

/-- Witness for `dispatch_initial_response_only`, on the `envC1` run (one
tool-use block) and the `envText` run (no tool-use block, single model call). -/
theorem dispatch_initial_response_only_witness :
    process_query envC1 (some ()) "q" = .ok stC1val ∧
    stC1val.modelCalls.length =
      1 + countToolUse (envC1.model [⟨"user", .ofText "q"⟩] (some envC1.tools)).content ∧
    process_query envText (some ()) "q" = .ok stTextVal ∧
    stTextVal.modelCalls.length = 1 :=
  ⟨rfl,
   (dispatch_initial_response_only envC1 "q" stC1val rfl).1,
   rfl,
   (dispatch_initial_response_only envText "q" stTextVal rfl).2.2 rfl⟩

end MCPClient
